import Mathlib

/-!
Shallow embedding of tigera/key-cert-provisioner (Go) for specification
verification. Definitions are translated from the repository sources:

* `src/pkg/k8s/certificate.go` — CSR submission, watch loop, version
  dispatch, output writing (`WatchCSR`, `watchCSRUsingCertV1`,
  `watchCSRUsingCertV1beta1`, `WriteCertificateToFile`,
  `submitCSRUsingCertV1`, `GetKubernetesVersion`, ...);
* `src/pkg/cfg/config.go` — `Config`, `GetEnvOrDie`, `GetConfigOrDie`;
* `src/unnamed/part_001` — `main`, which treats a nil return of
  `k8s.WatchCSR` as success.

Go machine integers are modelled as `Int` (no overflow is reachable for the
version numbers involved), byte slices as `List Nat`, and the Kubernetes API
and file system as explicit state with injectable faults.
-/

namespace KCP

/-- Condition on a CertificateSigningRequest status.  In Go both
`certV1.CertificateSigningRequestCondition` and the v1beta1 variant carry a
`Type` string (values `"Approved"`, `"Denied"`, `"Failed"`) and a `Status`
string (`v1.ConditionTrue = "True"`, `v1.ConditionFalse = "False"`, or
empty/unset). -/
structure CSRCondition where
  condType : String
  status : String
deriving DecidableEq, Repr

/-- The observable part of a CertificateSigningRequest object as used by the
watch loops: its name, its status conditions (`Option` distinguishes a Go nil
slice from a present one, since the code tests `Status.Conditions != nil`),
and the issued certificate bytes (`Status.Certificate`). -/
structure CSRData where
  name : String
  conditions : Option (List CSRCondition)
  certificate : List Nat
deriving DecidableEq, Repr

/-- An event on the watch channel: either an object of the expected schema's
CertificateSigningRequest type, or an object of some other type (the Go type
assertion `event.Object.(*certV1.CertificateSigningRequest)` fails). -/
inductive WatchEvent
  | csrObj (c : CSRData)
  | foreignObj
deriving DecidableEq, Repr

/-- Runtime configuration (`cfg.Config` in `src/pkg/cfg/config.go`, plus the
`CACertPEM`/`CACertName` fields referenced by `certificate.go`'s
`WriteCertificateToFile`). -/
structure Config where
  csrName : String
  emptyDirLocation : String
  signer : String
  commonName : String
  emailAddress : String
  podIP : String
  keyName : String
  certName : String
  dnsNames : List String
  signatureAlgorithm : String
  privateKeyAlgorithm : String
  registerApiserver : Bool
  appName : String
  caCertPEM : List Nat
  caCertName : String
deriving DecidableEq, Repr

/-- Key material handed to the watch (`tls.X509CSR`): the PEM private key and
the PEM-encoded request bytes. -/
structure X509CSR where
  privateKeyPEM : List Nat
  csr : List Nat
deriving DecidableEq, Repr

/-- Result of a watch loop run.  `closed` is the `return nil` after the event
channel closes; `write cert` means the loop returned
`WriteCertificateToFile(cfg, cert, x509CSR)`, i.e. the Writer was invoked
with exactly `cert`; the error constructors carry the request name embedded
in the `fmt.Errorf` message. -/
inductive WatchResult
  | closed
  | write (cert : List Nat)
  | deniedErr (name : String)
  | failedErr (name : String)
  | typeErr
deriving DecidableEq, Repr

/-- Outcome of scanning one condition list (the `for _, c := range
chcsr.Status.Conditions` loop body). -/
inductive CondOutcome
  | approved
  | denied
  | failed
  | pending
deriving DecidableEq, Repr

/-- Approval test of the v1 watch loop (`certificate.go` line 85):
`c.Type == certV1.CertificateApproved && c.Status == v1.ConditionTrue`. -/
def approvedCondV1 (c : CSRCondition) : Bool :=
  c.condType == "Approved" && c.status == "True"

/-- Denial test shared by both loops: `c.Type == CertificateDenied &&
c.Status == v1.ConditionTrue`. -/
def deniedCond (c : CSRCondition) : Bool :=
  c.condType == "Denied" && c.status == "True"

/-- Failure test shared by both loops: `c.Type == CertificateFailed &&
c.Status == v1.ConditionTrue`. -/
def failedCond (c : CSRCondition) : Bool :=
  c.condType == "Failed" && c.status == "True"

/-- Approval test of the v1beta1 watch loop (`certificate.go` line 114):
`c.Type == certV1beta1.CertificateApproved && (c.Status == v1.ConditionTrue
|| c.Status == "")` — status unset is treated as true for backwards
compatibility. -/
def approvedCondV1beta1 (c : CSRCondition) : Bool :=
  c.condType == "Approved" && (c.status == "True" || c.status == "")

/-- Condition scan of `watchCSRUsingCertV1` (`certificate.go` lines 83-95):
first condition that is Approved/True ends the scan approved; a Denied/True
or Failed/True condition returns the corresponding error immediately. -/
def evalCondsV1 : List CSRCondition → CondOutcome
  | [] => .pending
  | c :: rest =>
    if approvedCondV1 c then .approved
    else if deniedCond c then .denied
    else if failedCond c then .failed
    else evalCondsV1 rest

/-- Condition scan of `watchCSRUsingCertV1beta1` (`certificate.go` lines
111-124); identical to the v1 scan except for the approval polarity. -/
def evalCondsV1beta1 : List CSRCondition → CondOutcome
  | [] => .pending
  | c :: rest =>
    if approvedCondV1beta1 c then .approved
    else if deniedCond c then .denied
    else if failedCond c then .failed
    else evalCondsV1beta1 rest

/-- One iteration of the `watchCSRUsingCertV1` event loop (`certificate.go`
lines 77-99): `none` means the loop continues with the next event, `some r`
means the function returns.  A foreign object type returns the "unexpected
type" error; a matching name with non-nil conditions and `len(Certificate) >
0` evaluates the conditions; anything else is skipped. -/
def stepCSRV1 (cfg : Config) : WatchEvent → Option WatchResult
  | .foreignObj => some .typeErr
  | .csrObj c =>
    if c.name == cfg.csrName && c.conditions.isSome && decide (c.certificate.length > 0) then
      match evalCondsV1 (c.conditions.getD []) with
      | .approved => some (.write c.certificate)
      | .denied => some (.deniedErr cfg.csrName)
      | .failed => some (.failedErr cfg.csrName)
      | .pending => none
    else none

/-- One iteration of the `watchCSRUsingCertV1beta1` event loop
(`certificate.go` lines 105-128). -/
def stepCSRV1beta1 (cfg : Config) : WatchEvent → Option WatchResult
  | .foreignObj => some .typeErr
  | .csrObj c =>
    if c.name == cfg.csrName && c.conditions.isSome && decide (c.certificate.length > 0) then
      match evalCondsV1beta1 (c.conditions.getD []) with
      | .approved => some (.write c.certificate)
      | .denied => some (.deniedErr cfg.csrName)
      | .failed => some (.failedErr cfg.csrName)
      | .pending => none
    else none

/-- The `watchCSRUsingCertV1` loop over the (finite prefix of the) event
channel: process events in order until one returns, or the channel closes
(`return nil`, modelled as `.closed`). -/
def watchCSRUsingCertV1 (cfg : Config) : List WatchEvent → WatchResult
  | [] => .closed
  | e :: rest =>
    match stepCSRV1 cfg e with
    | some r => r
    | none => watchCSRUsingCertV1 cfg rest

/-- The `watchCSRUsingCertV1beta1` loop over the event channel. -/
def watchCSRUsingCertV1beta1 (cfg : Config) : List WatchEvent → WatchResult
  | [] => .closed
  | e :: rest =>
    match stepCSRV1beta1 cfg e with
    | some r => r
    | none => watchCSRUsingCertV1beta1 cfg rest

/-- Parsed authority version (`versionInfo` in `certificate.go`): Go `int`
fields modelled as `Int`. -/
structure versionInfo where
  major : Int
  minor : Int
deriving DecidableEq, Repr

/-- The two resource schema generations (`certificates.k8s.io/v1` and
`certificates.k8s.io/v1beta1`). -/
inductive Schema
  | certV1
  | certV1beta1
deriving DecidableEq, Repr

/-- Schema chosen by `watchCSRBasedOnKubernetesVersion` (`certificate.go`
lines 69-74): `if version.Major > 1 || version.Minor >= 19` dispatch to the
v1 watch, else the v1beta1 watch.  `createCSRWatcher` (lines 58-67) uses the
same condition. -/
def watchCSRSchema (v : versionInfo) : Schema :=
  if v.major > 1 ∨ v.minor ≥ 19 then .certV1 else .certV1beta1

/-- Schema chosen by `submitCSRBasedOnKubernetesVersion` (`certificate.go`
lines 169-174): the same `version.Major > 1 || version.Minor >= 19` test
dispatching to `submitCSRUsingCertV1` or `submitCSRUsingCertV1beta1`. -/
def submitCSRSchema (v : versionInfo) : Schema :=
  if v.major > 1 ∨ v.minor ≥ 19 then .certV1 else .certV1beta1

/-- Modelled from the spec: the claim's own selection rule, "the newer schema
exactly when major > 1, or major == 1 and minor >= 19", kept separate from
the source-derived `watchCSRSchema`/`submitCSRSchema` so the two can be
compared. -/
def specNewerSchema (v : versionInfo) : Bool :=
  v.major > 1 || (v.major == 1 && v.minor ≥ 19)

/-- Value of a nonempty all-digit character list, `none` otherwise (helper
for the `strconv.Atoi` model). -/
def digitsVal (cs : List Char) : Option Nat :=
  if cs = [] then none
  else
    cs.foldl
      (fun acc c =>
        match acc with
        | none => none
        | some n => if c.isDigit then some (n * 10 + (c.toNat - 48)) else none)
      (some 0)

/-- Model of Go `strconv.Atoi`: an optional leading sign followed by at least
one digit and nothing else; any other string is a parse error.  (Go's
out-of-range failure is not modelled; version numbers are small.) -/
def atoi (s : String) : Option Int :=
  match s.data with
  | '+' :: rest => (digitsVal rest).map Int.ofNat
  | '-' :: rest => (digitsVal rest).map (fun n => -(n : Int))
  | cs => (digitsVal cs).map Int.ofNat

/-- Model of Go `strings.TrimSuffix(s, "+")`: drop one trailing `'+'` if
present, otherwise return the string unchanged. -/
def trimSuffixPlus (s : String) : String :=
  match s.data.getLast? with
  | some '+' => ⟨s.data.dropLast⟩
  | _ => s

/-- `GetKubernetesVersion` (`certificate.go` lines 248-269) applied to the
authority's reported version strings: `major` is parsed by `strconv.Atoi`
directly; `minor` is parsed after `strings.TrimSuffix(v.Minor, "+")`.  A
parse failure is returned as a fatal error.  (The preceding
`Discovery().ServerVersion()` transport error branch is outside this model:
the function is given the reported strings.) -/
def GetKubernetesVersion (serverMajor serverMinor : String) : Except String versionInfo :=
  match atoi serverMajor with
  | none => .error ("failed to parse k8s major version: " ++ serverMajor)
  | some major =>
    match atoi (trimSuffixPlus serverMinor) with
    | none => .error ("failed to parse k8s minor version: " ++ serverMinor)
    | some minor => .ok ⟨major, minor⟩

/-- Interpretation of a `WatchResult` as the Go `error` return of the watch
function, as seen by `main` (`src/unnamed/part_001` lines 49-51): `closed` is
a nil return, a write returns whatever `WriteCertificateToFile` returned
(`writeOk` says whether the file writes succeeded), the rest are non-nil
errors.  `main` calls `log.Fatalf` exactly when the return is non-nil. -/
def watchReturnIsNil (writeOk : Bool) : WatchResult → Bool
  | .closed => true
  | .write _ => writeOk
  | .deniedErr _ => false
  | .failedErr _ => false
  | .typeErr => false

/-- Errors returned by the Kubernetes API model.  `alreadyExists` is the
error recognized by `errors.IsAlreadyExists`; `notFound` is the error a
delete of a missing name returns; `other` stands for any further API error
(transport failure, forbidden, ...), injectable per call. -/
inductive ApiErr
  | alreadyExists
  | notFound
  | other (msg : String)
deriving DecidableEq, Repr

/-- Store of CertificateSigningRequest resources held by the API server,
keyed by name; the value is the stored `Spec.Request` bytes. -/
structure CsrStore where
  entries : List (String × List Nat)
deriving DecidableEq, Repr

/-- Request bytes stored under a name, if any. -/
def CsrStore.get (st : CsrStore) (name : String) : Option (List Nat) :=
  st.entries.lookup name

/-- `cli.Create` against the store, with an injectable fault: an injected
error is returned as-is; otherwise creation fails with `alreadyExists` when
the name is taken and stores the resource when it is free. -/
def createCSRApi (fault : Option ApiErr) (st : CsrStore) (name : String)
    (req : List Nat) : Except ApiErr CsrStore :=
  match fault with
  | some e => .error e
  | none =>
    if (st.get name).isSome then .error .alreadyExists
    else .ok ⟨(name, req) :: st.entries⟩

/-- `cli.Delete` against the store, with an injectable fault: deleting a
missing name fails with `notFound`, otherwise the entry is removed. -/
def deleteCSRApi (fault : Option ApiErr) (st : CsrStore) (name : String) :
    Except ApiErr CsrStore :=
  match fault with
  | some e => .error e
  | none =>
    if (st.get name).isSome then .ok ⟨st.entries.filter (fun p => p.1 ≠ name)⟩
    else .error .notFound

/-- Error return of the submission path.  `fatalCreate` is the wrapped
"crashed while trying to create Kubernetes certificate signing request"
error for a first-create failure other than already-exists; `deleteErr` and
`recreateErr` are the unwrapped errors of the recovery delete and the
retried create (`return err` in the source). -/
inductive SubmitErr
  | fatalCreate (e : ApiErr)
  | deleteErr (e : ApiErr)
  | recreateErr (e : ApiErr)
deriving DecidableEq, Repr

/-- API calls issued by one submission, in order. -/
inductive ApiOp
  | create
  | delete
deriving DecidableEq, Repr

/-- `submitCSRUsingCertV1` (`certificate.go` lines 176-210), with the
constructed resource abstracted to its request bytes and name: create; if
the error is already-exists, delete the stale resource by name and create
again, returning any delete/re-create error; any other create error is
fatal.  Returns the outcome, the final store, and the trace of API calls.
`f1`, `fd`, `f2` are the injectable faults of the three possible calls.
(`submitCSRUsingCertV1beta1`, lines 212-246, is line-for-line identical in
this abstraction.) -/
def submitCSRUsingCertV1 (cfg : Config) (x509CSR : X509CSR) (st : CsrStore)
    (f1 fd f2 : Option ApiErr) : Except SubmitErr CsrStore × List ApiOp :=
  match createCSRApi f1 st cfg.csrName x509CSR.csr with
  | .ok st1 => (.ok st1, [.create])
  | .error e =>
    if e = .alreadyExists then
      match deleteCSRApi fd st cfg.csrName with
      | .error ed => (.error (.deleteErr ed), [.create, .delete])
      | .ok st1 =>
        match createCSRApi f2 st1 cfg.csrName x509CSR.csr with
        | .error e2 => (.error (.recreateErr e2), [.create, .delete, .create])
        | .ok st2 => (.ok st2, [.create, .delete, .create])
    else (.error (.fatalCreate e), [.create])

/-- File system model: file path to content bytes. -/
structure FileSys where
  files : List (String × List Nat)
deriving DecidableEq, Repr

/-- Content of a file, if present. -/
def FileSys.get (fs : FileSys) (p : String) : Option (List Nat) :=
  fs.files.lookup p

/-- Model of Go `path.Join(dir, name)` for the clean inputs this program
uses: `dir ++ "/" ++ name`, degenerating to the other component when one is
empty (path cleaning of `.`/`..`/duplicate separators is not modelled). -/
def pathJoin (dir name : String) : String :=
  if dir = "" then name
  else if name = "" then dir
  else dir ++ "/" ++ name

/-- Model of `os.WriteFile` with an injectable per-path fault set: a faulted
path fails leaving the file system unchanged; otherwise the file is created
or replaced with the given content. -/
def osWriteFile (faults : List String) (fs : FileSys) (p : String)
    (content : List Nat) : Option FileSys :=
  if p ∈ faults then none
  else some ⟨(p, content) :: fs.files.filter (fun q => q.1 ≠ p)⟩

/-- `WriteCertificateToFile` (`certificate.go` lines 134-157): write the
certificate file, then the key file, then — only when both `CACertPEM` and
`CACertName` are non-empty — the CA file, each under
`path.Join(cfg.EmptyDirLocation, name)`; the first failing write returns the
"error while writing to file" error immediately, leaving the files written
so far in place.  Returns the Go error (as `Option`) and the resulting file
system. -/
def WriteCertificateToFile (cfg : Config) (cert : List Nat) (x509CSR : X509CSR)
    (faults : List String) (fs : FileSys) : Option String × FileSys :=
  match osWriteFile faults fs (pathJoin cfg.emptyDirLocation cfg.certName) cert with
  | none => (some "error while writing to file", fs)
  | some fs1 =>
    match osWriteFile faults fs1 (pathJoin cfg.emptyDirLocation cfg.keyName) x509CSR.privateKeyPEM with
    | none => (some "error while writing to file", fs1)
    | some fs2 =>
      if decide (cfg.caCertPEM.length > 0) && decide (cfg.caCertName.length > 0) then
        match osWriteFile faults fs2 (pathJoin cfg.emptyDirLocation cfg.caCertName) cfg.caCertPEM with
        | none => (some "error while writing to file", fs2)
        | some fs3 => (none, fs3)
      else (none, fs2)

/-- Model of Go `strings.Split(s, ",")` on the character list of `s`: split
at every comma.  `strings.Split` never returns an empty slice for a
non-empty separator — splitting the empty string yields `[[]]` (one empty
field). -/
def splitComma : List Char → List (List Char)
  | [] => [[]]
  | c :: rest =>
    match splitComma rest with
    | [] => [[]]
    | g :: gs => if c = ',' then [] :: g :: gs else (c :: g) :: gs

/-- `GetEnvOrDie` (`config.go` lines 43-49): a `log.Fatalf` exit is modelled
as the `.error` branch carrying the fatal message. -/
def GetEnvOrDie (env : String → String) (name : String) : Except String String :=
  if env name = "" then
    .error ("environment variable " ++ name ++ " cannot be empty")
  else .ok (env name)

/-- `GetConfigOrDie` (`config.go` lines 52-71) over an environment `env`:
split `DNS_NAMES` on commas, exit fatally if the resulting list is empty
(the guard in the source), then resolve the required variables in source
order with `GetEnvOrDie` and the optional ones with plain `os.Getenv`.
`CACertPEM`/`CACertName` are not set by this revision of the function and
keep their Go zero values. -/
def GetConfigOrDie (env : String → String) : Except String Config := do
  let dnsNames := (splitComma (env "DNS_NAMES").data).map fun cs => String.mk cs
  if dnsNames = [] then
    throw "environment variable DNS_NAMES cannot be empty"
  let podNamespace ← GetEnvOrDie env "POD_NAMESPACE"
  let podName ← GetEnvOrDie env "POD_NAME"
  let signer ← GetEnvOrDie env "SIGNER"
  let commonName ← GetEnvOrDie env "COMMON_NAME"
  let emptyDirLocation ← GetEnvOrDie env "CERTIFICATE_PATH"
  let keyName ← GetEnvOrDie env "KEY_NAME"
  let certName ← GetEnvOrDie env "CERT_NAME"
  let podIP ← GetEnvOrDie env "POD_IP"
  let appName ← GetEnvOrDie env "APP_NAME"
  return { csrName := podNamespace ++ ":" ++ podName
           emptyDirLocation := emptyDirLocation
           signer := signer
           commonName := commonName
           emailAddress := env "EMAIL_ADDRESS"
           podIP := podIP
           keyName := keyName
           certName := certName
           dnsNames := dnsNames
           signatureAlgorithm := env "SIGNATURE_ALGORITHM"
           privateKeyAlgorithm := env "KEY_ALGORITHM"
           registerApiserver := false
           appName := appName
           caCertPEM := []
           caCertName := "" }

/-- Concrete configuration used for concrete evaluations. -/
def cfgEx : Config :=
  { csrName := "ns:pod"
    emptyDirLocation := "d"
    signer := "example.com/signer"
    commonName := "cn"
    emailAddress := ""
    podIP := "10.0.0.1"
    keyName := "k.key"
    certName := "c.crt"
    dnsNames := ["svc.ns1"]
    signatureAlgorithm := ""
    privateKeyAlgorithm := ""
    registerApiserver := false
    appName := "app"
    caCertPEM := []
    caCertName := "" }

theorem watchV1_append_of_skips (cfg : Config) (pre rest : List WatchEvent)
    (h : ∀ e ∈ pre, stepCSRV1 cfg e = none) :
    watchCSRUsingCertV1 cfg (pre ++ rest) = watchCSRUsingCertV1 cfg rest := by
  induction pre with
  | nil => rfl
  | cons e es ih =>
    have he : stepCSRV1 cfg e = none := h e (List.mem_cons_self _ _)
    have ih2 := ih fun x hx => h x (List.mem_cons_of_mem _ hx)
    simpa [watchCSRUsingCertV1, he] using ih2

theorem watchV1beta1_append_of_skips (cfg : Config) (pre rest : List WatchEvent)
    (h : ∀ e ∈ pre, stepCSRV1beta1 cfg e = none) :
    watchCSRUsingCertV1beta1 cfg (pre ++ rest) = watchCSRUsingCertV1beta1 cfg rest := by
  induction pre with
  | nil => rfl
  | cons e es ih =>
    have he : stepCSRV1beta1 cfg e = none := h e (List.mem_cons_self _ _)
    have ih2 := ih fun x hx => h x (List.mem_cons_of_mem _ hx)
    simpa [watchCSRUsingCertV1beta1, he] using ih2

theorem evalCondsV1_append_of_quiet (cpre l : List CSRCondition)
    (h : ∀ x ∈ cpre, approvedCondV1 x = false ∧ deniedCond x = false ∧ failedCond x = false) :
    evalCondsV1 (cpre ++ l) = evalCondsV1 l := by
  induction cpre with
  | nil => rfl
  | cons c cs ih =>
    obtain ⟨h1, h2, h3⟩ := h c (List.mem_cons_self _ _)
    have ih2 := ih fun x hx => h x (List.mem_cons_of_mem _ hx)
    simpa [evalCondsV1, h1, h2, h3] using ih2

theorem evalCondsV1beta1_append_of_quiet (cpre l : List CSRCondition)
    (h : ∀ x ∈ cpre, approvedCondV1beta1 x = false ∧ deniedCond x = false ∧ failedCond x = false) :
    evalCondsV1beta1 (cpre ++ l) = evalCondsV1beta1 l := by
  induction cpre with
  | nil => rfl
  | cons c cs ih =>
    obtain ⟨h1, h2, h3⟩ := h c (List.mem_cons_self _ _)
    have ih2 := ih fun x hx => h x (List.mem_cons_of_mem _ hx)
    simpa [evalCondsV1beta1, h1, h2, h3] using ih2

theorem deniedCond_not_approved (c : CSRCondition) (h : deniedCond c = true) :
    approvedCondV1 c = false ∧ approvedCondV1beta1 c = false ∧ failedCond c = false := by
  simp only [deniedCond, Bool.and_eq_true, beq_iff_eq] at h
  obtain ⟨ht, hs⟩ := h
  refine ⟨?_, ?_, ?_⟩ <;> simp [approvedCondV1, approvedCondV1beta1, failedCond, ht]

theorem failedCond_not_approved (c : CSRCondition) (h : failedCond c = true) :
    approvedCondV1 c = false ∧ approvedCondV1beta1 c = false ∧ deniedCond c = false := by
  simp only [failedCond, Bool.and_eq_true, beq_iff_eq] at h
  obtain ⟨ht, hs⟩ := h
  refine ⟨?_, ?_, ?_⟩ <;> simp [approvedCondV1, approvedCondV1beta1, deniedCond, ht]

theorem stepCSRV1_of_ready (cfg : Config) (c : CSRData) (l : List CSRCondition)
    (hname : c.name = cfg.csrName) (hconds : c.conditions = some l)
    (hcert : c.certificate ≠ []) :
    stepCSRV1 cfg (.csrObj c) =
      match evalCondsV1 l with
      | .approved => some (.write c.certificate)
      | .denied => some (.deniedErr cfg.csrName)
      | .failed => some (.failedErr cfg.csrName)
      | .pending => none := by
  have hlen : 0 < c.certificate.length := List.length_pos.mpr hcert
  simp [stepCSRV1, hname, hconds, hlen]

theorem stepCSRV1beta1_of_ready (cfg : Config) (c : CSRData) (l : List CSRCondition)
    (hname : c.name = cfg.csrName) (hconds : c.conditions = some l)
    (hcert : c.certificate ≠ []) :
    stepCSRV1beta1 cfg (.csrObj c) =
      match evalCondsV1beta1 l with
      | .approved => some (.write c.certificate)
      | .denied => some (.deniedErr cfg.csrName)
      | .failed => some (.failedErr cfg.csrName)
      | .pending => none := by
  have hlen : 0 < c.certificate.length := List.length_pos.mpr hcert
  simp [stepCSRV1beta1, hname, hconds, hlen]

theorem stepCSRV1_skip_empty_cert (cfg : Config) (c : CSRData)
    (hcert : c.certificate = []) : stepCSRV1 cfg (.csrObj c) = none := by
  simp [stepCSRV1, hcert]

theorem stepCSRV1beta1_skip_empty_cert (cfg : Config) (c : CSRData)
    (hcert : c.certificate = []) : stepCSRV1beta1 cfg (.csrObj c) = none := by
  simp [stepCSRV1beta1, hcert]

theorem stepCSRV1_skip_nil_conds (cfg : Config) (c : CSRData)
    (hconds : c.conditions = none) : stepCSRV1 cfg (.csrObj c) = none := by
  simp [stepCSRV1, hconds]

theorem stepCSRV1beta1_skip_nil_conds (cfg : Config) (c : CSRData)
    (hconds : c.conditions = none) : stepCSRV1beta1 cfg (.csrObj c) = none := by
  simp [stepCSRV1beta1, hconds]

theorem stepCSRV1_skip_name (cfg : Config) (c : CSRData)
    (hname : c.name ≠ cfg.csrName) : stepCSRV1 cfg (.csrObj c) = none := by
  simp [stepCSRV1, hname]

theorem stepCSRV1beta1_skip_name (cfg : Config) (c : CSRData)
    (hname : c.name ≠ cfg.csrName) : stepCSRV1beta1 cfg (.csrObj c) = none := by
  simp [stepCSRV1beta1, hname]

/-- C1 counterexample: a stream whose only event matches the configured
request name and carries a Denied=true condition (and no Approved condition
at all) but has an empty issued-certificate field.  The claim says such a
watch terminates with a denial error; the code skips the event (the
certificate-length gate fails), the channel closes, and the watch returns
nil (`.closed`), not a denial. -/
theorem c1_counterexample :
    cfgEx.csrName = "ns:pod" ∧
    deniedCond ⟨"Denied", "True"⟩ = true ∧
    approvedCondV1 ⟨"Denied", "True"⟩ = false ∧
    watchCSRUsingCertV1 cfgEx [.csrObj ⟨"ns:pod", some [⟨"Denied", "True"⟩], []⟩] =
      .closed ∧
    WatchResult.closed ≠ .deniedErr "ns:pod" := by
  refine ⟨rfl, by decide, by decide, ?_, by decide⟩
  decide

/-- C1 (amended): on either schema's watch, if every earlier event is
skipped, and an event arrives whose name matches the configured request
name, whose issued-certificate field is non-empty, and whose condition list
contains a Denied=true (respectively Failed=true) condition preceded only by
conditions that are neither Approved-true (under either schema's polarity)
nor Denied-true nor Failed-true, then the watch terminates with the denial
(respectively failure) error embedding the request name, and the Writer is
never invoked. -/
theorem c1_amended (cfg : Config) (pre rest : List WatchEvent) (c : CSRData)
    (cpre csuf : List CSRCondition) (d : CSRCondition)
    (hpre1 : ∀ e ∈ pre, stepCSRV1 cfg e = none)
    (hpre2 : ∀ e ∈ pre, stepCSRV1beta1 cfg e = none)
    (hname : c.name = cfg.csrName)
    (hcert : c.certificate ≠ [])
    (hconds : c.conditions = some (cpre ++ d :: csuf))
    (hquiet : ∀ x ∈ cpre, approvedCondV1 x = false ∧ approvedCondV1beta1 x = false ∧
      deniedCond x = false ∧ failedCond x = false) :
    (deniedCond d = true →
      watchCSRUsingCertV1 cfg (pre ++ .csrObj c :: rest) = .deniedErr cfg.csrName ∧
      watchCSRUsingCertV1beta1 cfg (pre ++ .csrObj c :: rest) = .deniedErr cfg.csrName) ∧
    (failedCond d = true →
      watchCSRUsingCertV1 cfg (pre ++ .csrObj c :: rest) = .failedErr cfg.csrName ∧
      watchCSRUsingCertV1beta1 cfg (pre ++ .csrObj c :: rest) = .failedErr cfg.csrName) ∧
    ((deniedCond d = true ∨ failedCond d = true) → ∀ b,
      watchCSRUsingCertV1 cfg (pre ++ .csrObj c :: rest) ≠ .write b ∧
      watchCSRUsingCertV1beta1 cfg (pre ++ .csrObj c :: rest) ≠ .write b) := by
  have hq1 : ∀ x ∈ cpre, approvedCondV1 x = false ∧ deniedCond x = false ∧ failedCond x = false :=
    fun x hx => ⟨(hquiet x hx).1, (hquiet x hx).2.2.1, (hquiet x hx).2.2.2⟩
  have hq2 : ∀ x ∈ cpre, approvedCondV1beta1 x = false ∧ deniedCond x = false ∧ failedCond x = false :=
    fun x hx => ⟨(hquiet x hx).2.1, (hquiet x hx).2.2.1, (hquiet x hx).2.2.2⟩
  have hw1 := watchV1_append_of_skips cfg pre (.csrObj c :: rest) hpre1
  have hw2 := watchV1beta1_append_of_skips cfg pre (.csrObj c :: rest) hpre2
  have hs1 := stepCSRV1_of_ready cfg c (cpre ++ d :: csuf) hname hconds hcert
  have hs2 := stepCSRV1beta1_of_ready cfg c (cpre ++ d :: csuf) hname hconds hcert
  have he1 := evalCondsV1_append_of_quiet cpre (d :: csuf) hq1
  have he2 := evalCondsV1beta1_append_of_quiet cpre (d :: csuf) hq2
  have hden : deniedCond d = true →
      watchCSRUsingCertV1 cfg (pre ++ .csrObj c :: rest) = .deniedErr cfg.csrName ∧
      watchCSRUsingCertV1beta1 cfg (pre ++ .csrObj c :: rest) = .deniedErr cfg.csrName := by
    intro hd
    obtain ⟨hna1, hna2, _⟩ := deniedCond_not_approved d hd
    have hv1 : evalCondsV1 (cpre ++ d :: csuf) = .denied := by
      rw [he1]; simp [evalCondsV1, hna1, hd]
    have hv2 : evalCondsV1beta1 (cpre ++ d :: csuf) = .denied := by
      rw [he2]; simp [evalCondsV1beta1, hna2, hd]
    rw [hv1] at hs1
    rw [hv2] at hs2
    constructor
    · rw [hw1]; simp [watchCSRUsingCertV1, hs1]
    · rw [hw2]; simp [watchCSRUsingCertV1beta1, hs2]
  have hfail : failedCond d = true →
      watchCSRUsingCertV1 cfg (pre ++ .csrObj c :: rest) = .failedErr cfg.csrName ∧
      watchCSRUsingCertV1beta1 cfg (pre ++ .csrObj c :: rest) = .failedErr cfg.csrName := by
    intro hf
    obtain ⟨hna1, hna2, hnd⟩ := failedCond_not_approved d hf
    have hv1 : evalCondsV1 (cpre ++ d :: csuf) = .failed := by
      rw [he1]; simp [evalCondsV1, hna1, hnd, hf]
    have hv2 : evalCondsV1beta1 (cpre ++ d :: csuf) = .failed := by
      rw [he2]; simp [evalCondsV1beta1, hna2, hnd, hf]
    rw [hv1] at hs1
    rw [hv2] at hs2
    constructor
    · rw [hw1]; simp [watchCSRUsingCertV1, hs1]
    · rw [hw2]; simp [watchCSRUsingCertV1beta1, hs2]
  refine ⟨hden, hfail, ?_⟩
  rintro (hd | hf) b
  · obtain ⟨h1, h2⟩ := hden hd
    rw [h1, h2]
    exact ⟨by simp, by simp⟩
  · obtain ⟨h1, h2⟩ := hfail hf
    rw [h1, h2]
    exact ⟨by simp, by simp⟩

/-- C1 witness: on both schemas, a matching event with a Denied=true
condition and non-empty certificate bytes terminates the watch with the
denial error embedding the request name. -/
theorem c1_amended_witness :
    watchCSRUsingCertV1 cfgEx [.csrObj ⟨"ns:pod", some [⟨"Denied", "True"⟩], [1]⟩] =
      .deniedErr "ns:pod" ∧
    watchCSRUsingCertV1beta1 cfgEx [.csrObj ⟨"ns:pod", some [⟨"Denied", "True"⟩], [1]⟩] =
      .deniedErr "ns:pod" := by
  have h := c1_amended cfgEx [] [] ⟨"ns:pod", some [⟨"Denied", "True"⟩], [1]⟩
    [] [] ⟨"Denied", "True"⟩ (by simp) (by simp) rfl (by simp) rfl (by simp)
  exact h.1 (by decide)

/-- C2 counterexample: at a resolved authority version of major=0, minor=19,
both dispatch sites select the newer (v1) schema, while the claim's rule
"newer exactly when major > 1, or major == 1 and minor >= 19" selects the
legacy schema there — the code's condition is `Major > 1 || Minor >= 19`
with no `major == 1` guard on the minor test. -/
theorem c2_counterexample :
    watchCSRSchema ⟨0, 19⟩ = .certV1 ∧
    submitCSRSchema ⟨0, 19⟩ = .certV1 ∧
    specNewerSchema ⟨0, 19⟩ = false := by
  refine ⟨?_, ?_, by decide⟩ <;> simp [watchCSRSchema, submitCSRSchema]

/-- C2 (amended): schema selection for both submission and watch uses the
newer schema exactly when major > 1 or minor >= 19 (regardless of the major
in the second disjunct); in particular 1.18 selects the legacy schema, 1.19
and 2.0 the newer one, and for any resolved version both sites select the
same schema. -/
theorem c2_amended (v : versionInfo) :
    (watchCSRSchema v = .certV1 ↔ (v.major > 1 ∨ v.minor ≥ 19)) ∧
    watchCSRSchema v = submitCSRSchema v ∧
    watchCSRSchema ⟨1, 18⟩ = .certV1beta1 ∧
    watchCSRSchema ⟨1, 19⟩ = .certV1 ∧
    watchCSRSchema ⟨2, 0⟩ = .certV1 ∧
    submitCSRSchema ⟨1, 18⟩ = .certV1beta1 ∧
    submitCSRSchema ⟨1, 19⟩ = .certV1 ∧
    submitCSRSchema ⟨2, 0⟩ = .certV1 := by
  refine ⟨?_, ?_, ?_, ?_, ?_, ?_, ?_, ?_⟩
  all_goals simp [watchCSRSchema, submitCSRSchema]
  all_goals omega

/-- C3: evaluating an Approved condition, the legacy (v1beta1) watch accepts
exactly the statuses "True" and "" (so an unset/empty status is approved and
an explicit "False" is not), while the v1 watch accepts only an explicit
"True" (empty or any other value is not approved). -/
theorem c3_approval_polarity (s : String) :
    (approvedCondV1beta1 ⟨"Approved", s⟩ = true ↔ (s = "True" ∨ s = "")) ∧
    (approvedCondV1 ⟨"Approved", s⟩ = true ↔ s = "True") ∧
    evalCondsV1beta1 [⟨"Approved", ""⟩] = .approved ∧
    evalCondsV1beta1 [⟨"Approved", "False"⟩] = .pending ∧
    evalCondsV1 [⟨"Approved", ""⟩] = .pending ∧
    evalCondsV1 [⟨"Approved", "False"⟩] = .pending := by
  refine ⟨?_, ?_, by decide, by decide, by decide, by decide⟩ <;>
    simp [approvedCondV1beta1, approvedCondV1]

/-- C4: for a matching event (on either schema's watch, with every earlier
event skipped): an event with an empty issued-certificate field — even one
carrying an Approved condition — does not terminate the watch, which simply
continues with the remaining events; likewise an event whose condition list
is nil; and an event whose condition list contains an Approved-true
condition (under the schema's polarity) preceded only by non-terminal
conditions, together with non-empty certificate bytes, terminates the watch
with the Writer receiving exactly those certificate bytes. -/
theorem c4_gating (cfg : Config) (pre rest : List WatchEvent) (c : CSRData)
    (cpre csuf : List CSRCondition) (a : CSRCondition)
    (hpre1 : ∀ e ∈ pre, stepCSRV1 cfg e = none)
    (hpre2 : ∀ e ∈ pre, stepCSRV1beta1 cfg e = none)
    (hname : c.name = cfg.csrName) :
    (c.certificate = [] →
      watchCSRUsingCertV1 cfg (pre ++ .csrObj c :: rest) = watchCSRUsingCertV1 cfg rest ∧
      watchCSRUsingCertV1beta1 cfg (pre ++ .csrObj c :: rest) = watchCSRUsingCertV1beta1 cfg rest) ∧
    (c.conditions = none →
      watchCSRUsingCertV1 cfg (pre ++ .csrObj c :: rest) = watchCSRUsingCertV1 cfg rest ∧
      watchCSRUsingCertV1beta1 cfg (pre ++ .csrObj c :: rest) = watchCSRUsingCertV1beta1 cfg rest) ∧
    (c.certificate ≠ [] → c.conditions = some (cpre ++ a :: csuf) →
      approvedCondV1 a = true →
      (∀ x ∈ cpre, approvedCondV1 x = false ∧ deniedCond x = false ∧ failedCond x = false) →
      watchCSRUsingCertV1 cfg (pre ++ .csrObj c :: rest) = .write c.certificate) ∧
    (c.certificate ≠ [] → c.conditions = some (cpre ++ a :: csuf) →
      approvedCondV1beta1 a = true →
      (∀ x ∈ cpre, approvedCondV1beta1 x = false ∧ deniedCond x = false ∧ failedCond x = false) →
      watchCSRUsingCertV1beta1 cfg (pre ++ .csrObj c :: rest) = .write c.certificate) := by
  have hw1 := watchV1_append_of_skips cfg pre (.csrObj c :: rest) hpre1
  have hw2 := watchV1beta1_append_of_skips cfg pre (.csrObj c :: rest) hpre2
  refine ⟨?_, ?_, ?_, ?_⟩
  · intro hcert
    have h1 := stepCSRV1_skip_empty_cert cfg c hcert
    have h2 := stepCSRV1beta1_skip_empty_cert cfg c hcert
    constructor
    · rw [hw1]; simp [watchCSRUsingCertV1, h1]
    · rw [hw2]; simp [watchCSRUsingCertV1beta1, h2]
  · intro hconds
    have h1 := stepCSRV1_skip_nil_conds cfg c hconds
    have h2 := stepCSRV1beta1_skip_nil_conds cfg c hconds
    constructor
    · rw [hw1]; simp [watchCSRUsingCertV1, h1]
    · rw [hw2]; simp [watchCSRUsingCertV1beta1, h2]
  · intro hcert hconds ha hq
    have hs := stepCSRV1_of_ready cfg c (cpre ++ a :: csuf) hname hconds hcert
    have hv : evalCondsV1 (cpre ++ a :: csuf) = .approved := by
      rw [evalCondsV1_append_of_quiet cpre (a :: csuf) hq]
      simp [evalCondsV1, ha]
    rw [hv] at hs
    rw [hw1]; simp [watchCSRUsingCertV1, hs]
  · intro hcert hconds ha hq
    have hs := stepCSRV1beta1_of_ready cfg c (cpre ++ a :: csuf) hname hconds hcert
    have hv : evalCondsV1beta1 (cpre ++ a :: csuf) = .approved := by
      rw [evalCondsV1beta1_append_of_quiet cpre (a :: csuf) hq]
      simp [evalCondsV1beta1, ha]
    rw [hv] at hs
    rw [hw2]; simp [watchCSRUsingCertV1beta1, hs]

/-- C4 witness: a matching Approved event with an empty certificate leaves
the watch running (the stream then closes with `.closed`), while the same
event with certificate bytes `[5, 6]` terminates the watch with the Writer
receiving exactly `[5, 6]`, on both schemas. -/
theorem c4_gating_witness :
    watchCSRUsingCertV1 cfgEx [.csrObj ⟨"ns:pod", some [⟨"Approved", "True"⟩], []⟩] =
      watchCSRUsingCertV1 cfgEx [] ∧
    watchCSRUsingCertV1beta1 cfgEx [.csrObj ⟨"ns:pod", some [⟨"Approved", "True"⟩], []⟩] =
      watchCSRUsingCertV1beta1 cfgEx [] ∧
    watchCSRUsingCertV1 cfgEx [.csrObj ⟨"ns:pod", some [⟨"Approved", "True"⟩], [5, 6]⟩] =
      .write [5, 6] ∧
    watchCSRUsingCertV1beta1 cfgEx [.csrObj ⟨"ns:pod", some [⟨"Approved", "True"⟩], [5, 6]⟩] =
      .write [5, 6] := by
  have hempty := c4_gating cfgEx [] [] ⟨"ns:pod", some [⟨"Approved", "True"⟩], []⟩
    [] [] ⟨"Approved", "True"⟩ (by simp) (by simp) rfl
  have hfull := c4_gating cfgEx [] [] ⟨"ns:pod", some [⟨"Approved", "True"⟩], [5, 6]⟩
    [] [] ⟨"Approved", "True"⟩ (by simp) (by simp) rfl
  obtain ⟨he1, he2⟩ := hempty.1 rfl
  exact ⟨he1, he2,
    hfull.2.2.1 (by simp) rfl (by decide) (by simp),
    hfull.2.2.2 (by simp) rfl (by decide) (by simp)⟩

/-- C10: if every event observed before the watch channel closes is skipped
by the loop (no terminal disposition for the configured request name), both
watch functions return nil (`.closed`): the Writer is never invoked, no
certificate or key file is written, and `main`'s nil-check treats the run as
a success. -/
theorem c10_closed_reports_success (cfg : Config) (events : List WatchEvent)
    (writeOk : Bool)
    (h1 : ∀ e ∈ events, stepCSRV1 cfg e = none)
    (h2 : ∀ e ∈ events, stepCSRV1beta1 cfg e = none) :
    watchCSRUsingCertV1 cfg events = .closed ∧
    watchCSRUsingCertV1beta1 cfg events = .closed ∧
    watchReturnIsNil writeOk (watchCSRUsingCertV1 cfg events) = true ∧
    watchReturnIsNil writeOk (watchCSRUsingCertV1beta1 cfg events) = true ∧
    (∀ b, watchCSRUsingCertV1 cfg events ≠ .write b) ∧
    (∀ b, watchCSRUsingCertV1beta1 cfg events ≠ .write b) := by
  have e1 : watchCSRUsingCertV1 cfg events = .closed := by
    have := watchV1_append_of_skips cfg events [] h1
    simpa using this
  have e2 : watchCSRUsingCertV1beta1 cfg events = .closed := by
    have := watchV1beta1_append_of_skips cfg events [] h2
    simpa using this
  refine ⟨e1, e2, ?_, ?_, ?_, ?_⟩
  · rw [e1]; rfl
  · rw [e2]; rfl
  · intro b; rw [e1]; simp
  · intro b; rw [e2]; simp

/-- C10 witness: a stream holding one event for a different CSR name closes
without a terminal disposition; both watches return nil and `main` sees
success. -/
theorem c10_witness :
    watchCSRUsingCertV1 cfgEx [.csrObj ⟨"other:pod", some [⟨"Approved", "True"⟩], [1]⟩] =
      .closed ∧
    watchReturnIsNil false
      (watchCSRUsingCertV1beta1 cfgEx [.csrObj ⟨"other:pod", some [⟨"Approved", "True"⟩], [1]⟩]) =
      true := by
  have h := c10_closed_reports_success cfgEx
    [.csrObj ⟨"other:pod", some [⟨"Approved", "True"⟩], [1]⟩] false
    (by intro e he; simp at he; subst he; decide)
    (by intro e he; simp at he; subst he; decide)
  exact ⟨h.1, h.2.2.2.1⟩

theorem lookup_filter_ne {α : Type} (l : List (String × α)) (n : String) :
    List.lookup n (l.filter (fun p => p.1 ≠ n)) = none := by
  induction l with
  | nil => rfl
  | cons p ps ih =>
    obtain ⟨k, v⟩ := p
    rcases eq_or_ne k n with h | h
    · have hf : (fun p : String × α => decide (p.1 ≠ n)) (k, v) = false := by simp [h]
      simp only [List.filter_cons, hf, Bool.false_eq_true, if_false]
      exact ih
    · have hf : (fun p : String × α => decide (p.1 ≠ n)) (k, v) = true := by simp [h]
      have hb : (n == k) = false := by simp [Ne.symm h]
      simp only [List.filter_cons, hf, if_true, List.lookup, hb]
      exact ih

/-- C5: submission conflict handling.  When the name is already taken and no
API fault is injected, submission performs exactly one delete and one
retried create (trace `[create, delete, create]`), succeeds, and the final
store carries the new CSR bytes under the name.  A first-create failure
other than already-exists is returned as the wrapped fatal error with no
delete or retry; a failing delete, or a failing retried create, is returned
as an error with no further API call after it. -/
theorem c5_submission_conflict (cfg : Config) (x : X509CSR) (st : CsrStore)
    (old : List Nat) (e ed e2 : ApiErr) (fd f2 : Option ApiErr) :
    (st.get cfg.csrName = some old →
      (∃ st2, (submitCSRUsingCertV1 cfg x st none none none).1 = .ok st2 ∧
        st2.get cfg.csrName = some x.csr) ∧
      (submitCSRUsingCertV1 cfg x st none none none).2 = [.create, .delete, .create] ∧
      [ApiOp.create, .delete, .create].count .delete = 1 ∧
      [ApiOp.create, .delete, .create].count .create = 2) ∧
    (e ≠ .alreadyExists →
      submitCSRUsingCertV1 cfg x st (some e) fd f2 =
        (.error (.fatalCreate e), [.create])) ∧
    (st.get cfg.csrName = some old →
      submitCSRUsingCertV1 cfg x st none (some ed) f2 =
        (.error (.deleteErr ed), [.create, .delete])) ∧
    (st.get cfg.csrName = some old →
      submitCSRUsingCertV1 cfg x st none none (some e2) =
        (.error (.recreateErr e2), [.create, .delete, .create])) := by
  have hfil : List.lookup cfg.csrName
      (st.entries.filter (fun p => p.1 ≠ cfg.csrName)) = none :=
    lookup_filter_ne _ _
  have hfil2 : List.lookup cfg.csrName
      (List.filter (fun p => !decide (p.1 = cfg.csrName)) st.entries) = none := by
    simpa using hfil
  refine ⟨?_, ?_, ?_, ?_⟩
  · intro h
    have hsome : (List.lookup cfg.csrName st.entries).isSome = true := by
      simp only [CsrStore.get] at h; rw [h]; rfl
    refine ⟨⟨⟨(cfg.csrName, x.csr) :: st.entries.filter (fun p => p.1 ≠ cfg.csrName)⟩, ?_, ?_⟩,
      ?_, by decide, by decide⟩
    · simp [submitCSRUsingCertV1, createCSRApi, deleteCSRApi, CsrStore.get, hsome, hfil2]
    · simp [CsrStore.get, List.lookup]
    · simp [submitCSRUsingCertV1, createCSRApi, deleteCSRApi, CsrStore.get, hsome, hfil2]
  · intro he
    simp [submitCSRUsingCertV1, createCSRApi, he]
  · intro h
    have hsome : (List.lookup cfg.csrName st.entries).isSome = true := by
      simp only [CsrStore.get] at h; rw [h]; rfl
    simp [submitCSRUsingCertV1, createCSRApi, deleteCSRApi, CsrStore.get, hsome]
  · intro h
    have hsome : (List.lookup cfg.csrName st.entries).isSome = true := by
      simp only [CsrStore.get] at h; rw [h]; rfl
    simp [submitCSRUsingCertV1, createCSRApi, deleteCSRApi, CsrStore.get, hsome, hfil2]

/-- C5 witness: with `"ns:pod"` already stored with stale bytes `[0]`,
fault-free submission of new bytes `[7, 7]` traces exactly
create-delete-create and stores the new bytes; injected failures of each
call are returned without further retries. -/
theorem c5_witness :
    (∃ st2, (submitCSRUsingCertV1 cfgEx ⟨[9], [7, 7]⟩ ⟨[("ns:pod", [0])]⟩ none none none).1 =
        .ok st2 ∧ st2.get "ns:pod" = some [7, 7]) ∧
    (submitCSRUsingCertV1 cfgEx ⟨[9], [7, 7]⟩ ⟨[("ns:pod", [0])]⟩ none none none).2 =
      [.create, .delete, .create] ∧
    submitCSRUsingCertV1 cfgEx ⟨[9], [7, 7]⟩ ⟨[("ns:pod", [0])]⟩
        (some (.other "forbidden")) none none =
      (.error (.fatalCreate (.other "forbidden")), [.create]) ∧
    submitCSRUsingCertV1 cfgEx ⟨[9], [7, 7]⟩ ⟨[("ns:pod", [0])]⟩
        none (some (.other "conflict")) none =
      (.error (.deleteErr (.other "conflict")), [.create, .delete]) := by
  have h := c5_submission_conflict cfgEx ⟨[9], [7, 7]⟩ ⟨[("ns:pod", [0])]⟩ [0]
    (.other "forbidden") (.other "conflict") (.other "x") none none
  exact ⟨(h.1 rfl).1, (h.1 rfl).2.1, h.2.1 (by decide), h.2.2.1 rfl⟩

/-- C6 counterexample: a reported major version of "1+" is a fatal parse
error — `GetKubernetesVersion` trims the `'+'` qualifier from the minor
version only (`strings.TrimSuffix(v.Minor, "+")`), never from the major, so
the claim that a major of "1+" parses successfully is false. -/
theorem c6_counterexample :
    GetKubernetesVersion "1+" "21" = .error "failed to parse k8s major version: 1+" := by
  rfl

/-- C6 (amended): version resolution parses the major string as a plain
integer with no trimming, and the minor string after stripping one trailing
`'+'` qualifier; it succeeds with the parsed pair exactly when both parses
succeed and otherwise returns a fatal parse error.  In particular a minor of
"21+" parses to 21 while a major of "1+" is a fatal parse error. -/
theorem c6_amended (M m : String) (a b : Int) :
    (GetKubernetesVersion M m = .ok ⟨a, b⟩ ↔
      (atoi M = some a ∧ atoi (trimSuffixPlus m) = some b)) ∧
    GetKubernetesVersion "1" "21+" = .ok ⟨1, 21⟩ ∧
    GetKubernetesVersion "1" "21" = .ok ⟨1, 21⟩ ∧
    GetKubernetesVersion "1+" "21" = .error "failed to parse k8s major version: 1+" ∧
    GetKubernetesVersion "1" "x" = .error "failed to parse k8s minor version: x" := by
  refine ⟨?_, by rfl, by rfl, by rfl, by rfl⟩
  unfold GetKubernetesVersion
  rcases hM : atoi M with _ | ma
  · simp
  · rcases hm : atoi (trimSuffixPlus m) with _ | mb
    · simp
    · simp [versionInfo.mk.injEq]

/-- C9: the DNS-names guard in `GetConfigOrDie` is dead code, because Go's
`strings.Split` never returns an empty slice for a non-empty separator: for
every input the split of `DNS_NAMES` is non-empty, so with `DNS_NAMES` unset
or empty the function does not exit fatally but returns a configuration
whose DNS name list is `[""]` — a single empty entry — contradicting the
claimed invariant that every constructed configuration has a non-empty list
of non-empty DNS names. -/
theorem c9_dns_guard_dead :
    (∀ cs : List Char, splitComma cs ≠ []) ∧
    (GetConfigOrDie (fun n => if n = "DNS_NAMES" then "" else "x")).toOption.map
      Config.dnsNames = some [""] := by
  constructor
  · intro cs
    induction cs with
    | nil => simp [splitComma]
    | cons c rest ih =>
      simp only [splitComma]
      rcases h : splitComma rest with _ | ⟨g, gs⟩
      · simp
      · dsimp only
        split <;> simp
  · rfl

theorem lookup_filter_of_ne {α : Type} (l : List (String × α)) (p q : String)
    (h : q ≠ p) :
    List.lookup q (l.filter (fun r => r.1 ≠ p)) = List.lookup q l := by
  induction l with
  | nil => rfl
  | cons r rs ih =>
    obtain ⟨k, v⟩ := r
    rcases eq_or_ne k p with hk | hk
    · subst hk
      have hf : (fun r : String × α => decide (r.1 ≠ k)) (k, v) = false := by simp
      have hb : (q == k) = false := by simp [h]
      simp only [List.filter_cons, hf, Bool.false_eq_true, if_false, List.lookup, hb]
      exact ih
    · have hf : (fun r : String × α => decide (r.1 ≠ p)) (k, v) = true := by simp [hk]
      simp only [List.filter_cons, hf, if_true, List.lookup]
      rcases hq : (q == k) with _ | _
      · exact ih
      · rfl

theorem fsget_write_self (fs : FileSys) (p : String) (c : List Nat) :
    (FileSys.mk ((p, c) :: fs.files.filter (fun q => q.1 ≠ p))).get p = some c := by
  simp [FileSys.get, List.lookup]

theorem fsget_write_ne (fs : FileSys) (p : String) (c : List Nat) (q : String)
    (h : q ≠ p) :
    (FileSys.mk ((p, c) :: fs.files.filter (fun r => r.1 ≠ p))).get q = fs.get q := by
  have hb : (q == p) = false := by simp [h]
  simp only [FileSys.get, List.lookup, hb]
  exact lookup_filter_of_ne _ _ _ h

/-- C7 counterexample: with only the key-file write failing, the run fails
(`WriteCertificateToFile` returns an error) yet the certificate file is
visible in the output directory with the issued bytes while the key file is
absent — a partially written output state is observable after a failure, so
materialization is not all-or-nothing. -/
theorem c7_counterexample :
    (WriteCertificateToFile cfgEx [5, 6] ⟨[9], [7]⟩ ["d/k.key"] ⟨[]⟩).1 =
      some "error while writing to file" ∧
    (WriteCertificateToFile cfgEx [5, 6] ⟨[9], [7]⟩ ["d/k.key"] ⟨[]⟩).2.get "d/c.crt" =
      some [5, 6] ∧
    (WriteCertificateToFile cfgEx [5, 6] ⟨[9], [7]⟩ ["d/k.key"] ⟨[]⟩).2.get "d/k.key" =
      none := by
  refine ⟨?_, ?_, ?_⟩ <;> rfl

/-- Concrete configuration with a CA bundle configured, for concrete
evaluations of the Writer. -/
def cfgCA : Config :=
  { cfgEx with caCertPEM := [3], caCertName := "ca.crt" }

/-- C7 (amended): output materialization is sequential, not atomic.  When
none of the configured output paths fail, the run succeeds and every
configured file (certificate, key, and CA bundle when configured) is visible
with exactly the intended bytes; but on a failure the files already written
stay visible: if the certificate write succeeds and the key write fails, the
call returns the write error while the certificate file holds the issued
bytes and the key file is untouched. -/
theorem c7_amended (cfg : Config) (cert : List Nat) (x : X509CSR)
    (faults : List String) (fs : FileSys)
    (hdk : pathJoin cfg.emptyDirLocation cfg.certName ≠ pathJoin cfg.emptyDirLocation cfg.keyName)
    (hdc : pathJoin cfg.emptyDirLocation cfg.certName ≠ pathJoin cfg.emptyDirLocation cfg.caCertName)
    (hkc : pathJoin cfg.emptyDirLocation cfg.keyName ≠ pathJoin cfg.emptyDirLocation cfg.caCertName) :
    (pathJoin cfg.emptyDirLocation cfg.certName ∉ faults →
     pathJoin cfg.emptyDirLocation cfg.keyName ∉ faults →
     pathJoin cfg.emptyDirLocation cfg.caCertName ∉ faults →
      (WriteCertificateToFile cfg cert x faults fs).1 = none ∧
      (WriteCertificateToFile cfg cert x faults fs).2.get
        (pathJoin cfg.emptyDirLocation cfg.certName) = some cert ∧
      (WriteCertificateToFile cfg cert x faults fs).2.get
        (pathJoin cfg.emptyDirLocation cfg.keyName) = some x.privateKeyPEM ∧
      (cfg.caCertPEM ≠ [] → cfg.caCertName.length > 0 →
        (WriteCertificateToFile cfg cert x faults fs).2.get
          (pathJoin cfg.emptyDirLocation cfg.caCertName) = some cfg.caCertPEM)) ∧
    (pathJoin cfg.emptyDirLocation cfg.certName ∉ faults →
     pathJoin cfg.emptyDirLocation cfg.keyName ∈ faults →
      (WriteCertificateToFile cfg cert x faults fs).1 = some "error while writing to file" ∧
      (WriteCertificateToFile cfg cert x faults fs).2.get
        (pathJoin cfg.emptyDirLocation cfg.certName) = some cert ∧
      (WriteCertificateToFile cfg cert x faults fs).2.get
        (pathJoin cfg.emptyDirLocation cfg.keyName) = fs.get
        (pathJoin cfg.emptyDirLocation cfg.keyName)) := by
  have hwrite : ∀ (g : FileSys) (p : String) (c : List Nat), p ∉ faults →
      osWriteFile faults g p c = some ⟨(p, c) :: g.files.filter (fun q => q.1 ≠ p)⟩ := by
    intro g p c hp
    unfold osWriteFile
    rw [if_neg hp]
  have hfail : ∀ (g : FileSys) (p : String) (c : List Nat), p ∈ faults →
      osWriteFile faults g p c = none := by
    intro g p c hp
    unfold osWriteFile
    rw [if_pos hp]
  constructor
  · intro hc hk hca
    have h1 := hwrite fs (pathJoin cfg.emptyDirLocation cfg.certName) cert hc
    generalize hfs1 : (FileSys.mk ((pathJoin cfg.emptyDirLocation cfg.certName, cert) ::
      fs.files.filter (fun q => q.1 ≠ pathJoin cfg.emptyDirLocation cfg.certName))) = fs1 at h1
    have h2 := hwrite fs1 (pathJoin cfg.emptyDirLocation cfg.keyName) x.privateKeyPEM hk
    generalize hfs2 : (FileSys.mk ((pathJoin cfg.emptyDirLocation cfg.keyName, x.privateKeyPEM) ::
      fs1.files.filter (fun q => q.1 ≠ pathJoin cfg.emptyDirLocation cfg.keyName))) = fs2 at h2
    have hget1cert : fs1.get (pathJoin cfg.emptyDirLocation cfg.certName) = some cert := by
      rw [← hfs1]
      exact fsget_write_self fs _ cert
    have hget2cert : fs2.get (pathJoin cfg.emptyDirLocation cfg.certName) = some cert := by
      rw [← hfs2, fsget_write_ne fs1 _ _ _ hdk]
      exact hget1cert
    have hget2key : fs2.get (pathJoin cfg.emptyDirLocation cfg.keyName) = some x.privateKeyPEM := by
      rw [← hfs2]
      exact fsget_write_self fs1 _ _
    by_cases hcaCond : cfg.caCertPEM ≠ [] ∧ cfg.caCertName.length > 0
    · have hcond : (decide (cfg.caCertPEM.length > 0) && decide (cfg.caCertName.length > 0)) = true := by
        simp [List.length_pos.mpr hcaCond.1, hcaCond.2]
      have h3 := hwrite fs2 (pathJoin cfg.emptyDirLocation cfg.caCertName) cfg.caCertPEM hca
      generalize hfs3 : (FileSys.mk ((pathJoin cfg.emptyDirLocation cfg.caCertName, cfg.caCertPEM) ::
        fs2.files.filter (fun q => q.1 ≠ pathJoin cfg.emptyDirLocation cfg.caCertName))) = fs3 at h3
      have hres : WriteCertificateToFile cfg cert x faults fs = (none, fs3) := by
        unfold WriteCertificateToFile
        rw [h1]; dsimp only
        rw [h2]; dsimp only
        rw [hcond]
        simp only [eq_self_iff_true, if_true]
        rw [h3]
      rw [hres]
      refine ⟨rfl, ?_, ?_, fun _ _ => ?_⟩
      · rw [← hfs3, fsget_write_ne fs2 _ _ _ hdc]
        exact hget2cert
      · rw [← hfs3, fsget_write_ne fs2 _ _ _ hkc]
        exact hget2key
      · rw [← hfs3]
        exact fsget_write_self fs2 _ _
    · have hcond : (decide (cfg.caCertPEM.length > 0) && decide (cfg.caCertName.length > 0)) = false := by
        rcases not_and_or.mp hcaCond with h | h
        · have : cfg.caCertPEM = [] := not_not.mp h
          simp [this]
        · have : ¬ cfg.caCertName.length > 0 := h
          simp [Nat.le_zero.mp (Nat.not_lt.mp this)]
      have hres : WriteCertificateToFile cfg cert x faults fs = (none, fs2) := by
        unfold WriteCertificateToFile
        rw [h1]; dsimp only
        rw [h2]; dsimp only
        rw [hcond]
        simp only [Bool.false_eq_true, if_false]
      rw [hres]
      refine ⟨rfl, hget2cert, hget2key, fun hpem hname => ?_⟩
      exact absurd (And.intro hpem hname) hcaCond
  · intro hc hk
    have h1 := hwrite fs (pathJoin cfg.emptyDirLocation cfg.certName) cert hc
    generalize hfs1 : (FileSys.mk ((pathJoin cfg.emptyDirLocation cfg.certName, cert) ::
      fs.files.filter (fun q => q.1 ≠ pathJoin cfg.emptyDirLocation cfg.certName))) = fs1 at h1
    have h2 := hfail fs1 (pathJoin cfg.emptyDirLocation cfg.keyName) x.privateKeyPEM hk
    have hres : WriteCertificateToFile cfg cert x faults fs =
        (some "error while writing to file", fs1) := by
      unfold WriteCertificateToFile
      rw [h1]; dsimp only
      rw [h2]
    rw [hres]
    refine ⟨rfl, ?_, ?_⟩
    · rw [← hfs1]
      exact fsget_write_self fs _ cert
    · rw [← hfs1]
      exact fsget_write_ne fs _ cert _ (Ne.symm hdk)

/-- C7 witness: with no write faults and a CA bundle configured, all three
files become visible with the intended bytes; with the key write failing,
the failure leaves the certificate file visible. -/
theorem c7_witness :
    (WriteCertificateToFile cfgCA [5, 6] ⟨[9], [7]⟩ [] ⟨[]⟩).1 = none ∧
    (WriteCertificateToFile cfgCA [5, 6] ⟨[9], [7]⟩ [] ⟨[]⟩).2.get "d/c.crt" = some [5, 6] ∧
    (WriteCertificateToFile cfgCA [5, 6] ⟨[9], [7]⟩ [] ⟨[]⟩).2.get "d/ca.crt" = some [3] ∧
    (WriteCertificateToFile cfgCA [5, 6] ⟨[9], [7]⟩ ["d/k.key"] ⟨[]⟩).2.get "d/c.crt" =
      some [5, 6] := by
  have h := c7_amended cfgCA [5, 6] ⟨[9], [7]⟩ [] ⟨[]⟩
    (by decide) (by decide) (by decide)
  have h2 := c7_amended cfgCA [5, 6] ⟨[9], [7]⟩ ["d/k.key"] ⟨[]⟩
    (by decide) (by decide) (by decide)
  obtain ⟨ha, hb, _, hd⟩ := h.1 (by simp) (by simp) (by simp)
  obtain ⟨_, hcb, _⟩ := h2.2 (by decide) (by decide)
  exact ⟨ha, hb, hd (by decide) (by decide), hcb⟩

/-- C8 counterexample: an event whose object is not of the expected schema's
CSR type terminates the watch with the "unexpected type" error rather than
being skipped: with a foreign event followed by a matching approved event,
the watch returns `.typeErr` instead of continuing to the approval it would
reach had the foreign event been skipped. -/
theorem c8_counterexample :
    watchCSRUsingCertV1 cfgEx
      [.foreignObj, .csrObj ⟨"ns:pod", some [⟨"Approved", "True"⟩], [1, 2]⟩] = .typeErr ∧
    watchCSRUsingCertV1 cfgEx
      [.csrObj ⟨"ns:pod", some [⟨"Approved", "True"⟩], [1, 2]⟩] = .write [1, 2] ∧
    WatchResult.typeErr ≠ .write [1, 2] := by
  refine ⟨?_, ?_, by decide⟩ <;> rfl

/-- C8 (amended): on either schema's watch, an event whose object is not of
the expected schema's CSR resource type terminates the watch immediately
with the fatal "unexpected type" error — it is not skipped; events whose
name does not match the configured request name are the ones skipped
non-fatally, the watch continuing with subsequent events. -/
theorem c8_amended (cfg : Config) (rest : List WatchEvent) (c : CSRData)
    (hname : c.name ≠ cfg.csrName) :
    watchCSRUsingCertV1 cfg (.foreignObj :: rest) = .typeErr ∧
    watchCSRUsingCertV1beta1 cfg (.foreignObj :: rest) = .typeErr ∧
    watchCSRUsingCertV1 cfg (.csrObj c :: rest) = watchCSRUsingCertV1 cfg rest ∧
    watchCSRUsingCertV1beta1 cfg (.csrObj c :: rest) = watchCSRUsingCertV1beta1 cfg rest := by
  refine ⟨rfl, rfl, ?_, ?_⟩
  · simp [watchCSRUsingCertV1, stepCSRV1_skip_name cfg c hname]
  · simp [watchCSRUsingCertV1beta1, stepCSRV1beta1_skip_name cfg c hname]

/-- C8 witness: the fatal type error and the non-fatal name skip at concrete
inputs. -/
theorem c8_witness :
    watchCSRUsingCertV1 cfgEx [.foreignObj] = .typeErr ∧
    watchCSRUsingCertV1 cfgEx [.csrObj ⟨"other:pod", some [⟨"Approved", "True"⟩], [1]⟩] =
      watchCSRUsingCertV1 cfgEx [] := by
  have h := c8_amended cfgEx [] ⟨"other:pod", some [⟨"Approved", "True"⟩], [1]⟩ (by decide)
  exact ⟨h.1, h.2.2.1⟩

end KCP
